import Mathlib

set_option autoImplicit false

/-!
Verification of the CSV pipeline backend in `src/LocalFlaskChat/app.py`.

The Python module manages, per (session uuid, model name), three CSV tables
on disk (`video_description.csv`, `product_info.csv`, `judgement.csv`).
We model a CSV file as a header plus data rows, `csv.DictReader` as zipping
the header with each row (faithful for rectangular files; ragged files make
Python raise `KeyError`, which the theorems exclude via explicit
well-formedness hypotheses), Python dicts as ordered association lists, and
the data directory as a map from (uuid, model, table kind) to an optional
file.  The HTTP endpoints become pure functions from the request fields and
the filesystem to a response (an `Except` carrying the HTTP error status and
message) and, for POST endpoints, the new filesystem.
-/

namespace FlaskApp

/-- A CSV row as produced by Python's `csv.DictReader`: an ordered
association list from column name to cell value (insertion order equals
header order). -/
abbrev Row := List (String × String)

/-- A CSV file on disk: a header line and the data rows below it. -/
structure CSVFile where
  header : List String
  rows : List (List String)
deriving DecidableEq, Repr

/-- `csv.DictReader`: pair the header with each data row, in file order. -/
def dictRows (f : CSVFile) : List Row :=
  f.rows.map fun r => f.header.zip r

/-- Python dict read `m.get(k)` on an ordered association list. -/
def dictGet {α : Type} (m : List (String × α)) (k : String) : Option α :=
  (m.find? fun p => p.1 == k).map
    fun p => p.2

/-- Python dict write `m[k] = v` on an ordered association list: replace the
value in place when the key is present, append the pair otherwise. -/
def dictInsert {α : Type} (m : List (String × α)) (k : String) (v : α) : List (String × α) :=
  match m with
  | [] => [(k, v)]
  | p :: rest => if p.1 == k then (k, v) :: rest else p :: dictInsert rest k v

/-- Python dict access `row[k]` on a CSV row, made total with default `""`;
every theorem using it carries hypotheses putting `k` in the header, which is
exactly when Python's access succeeds. -/
def getCol (r : Row) (k : String) : String :=
  (dictGet r k).getD ""

/-- The dict comprehension dropping the `product_id` key from a row. -/
def stripId (r : Row) : Row :=
  r.filter fun p => !(p.1 == "product_id")

/-- `get_results` loading one table into the keyed mapping
`product_id -> non-key columns` (used for `video_description` and
`product_info`); later rows with the same id overwrite earlier ones. -/
def loadKeyed (f : CSVFile) : List (String × Row) :=
  (dictRows f).foldl (fun m r => dictInsert m (getCol r "product_id") (stripId r)) []

/-- One element of the `items` list built by `get_results`. -/
structure Item where
  product_id : String
  product_name : String
  category : String
  video_url : String
  thumbnail_url : String
  ground_truth_image_url : String
  label : String
  reason : String
  video_description : Row
  product_info : Row
deriving DecidableEq, Repr

/-- The item `get_results` builds from one judgement row: the row's own
fields plus the matching `video_description` and `product_info` entries
(Python `.get` with an empty-dict default, so an empty mapping when the id
is absent from the keyed table). -/
def itemOfRow (vmap pmap : List (String × Row)) (r : Row) : Item :=
  { product_id := getCol r "product_id"
    product_name := getCol r "product_name"
    category := getCol r "category"
    video_url := getCol r "video_url"
    thumbnail_url := getCol r "thumbnail_url"
    ground_truth_image_url := getCol r "ground_truth_image_url"
    label := getCol r "label"
    reason := getCol r "reason"
    video_description := (dictGet vmap (getCol r "product_id")).getD []
    product_info := (dictGet pmap (getCol r "product_id")).getD [] }

/-- The initial `label_counts` dict of `get_results`. -/
def initCounts : List (String × Nat) := [("Yes", 0), ("N/A", 0), ("No", 0)]

/-- `if label in label_counts: label_counts[label] += 1`. -/
def bumpLabel (m : List (String × Nat)) (l : String) : List (String × Nat) :=
  if (dictGet m l).isSome then
    m.map fun p => if p.1 == l then (p.1, p.2 + 1) else p
  else m

/-- The aggregation core of `get_results` once all three files are read:
build the two keyed maps, then fold over the judgement rows in file order,
appending one item per row and counting known labels. -/
def aggregate_core (vd pinfo jd : CSVFile) : List (String × Nat) × List Item :=
  let vmap := loadKeyed vd
  let pmap := loadKeyed pinfo
  (dictRows jd).foldl
    (fun acc r => (bumpLabel acc.1 (getCol r "label"), acc.2 ++ [itemOfRow vmap pmap r]))
    (initCounts, [])

/-- The last row of the list satisfying the predicate, as the first match in
the reversed list. -/
def lastMatch (rows : List Row) (p : Row → Bool) : Option Row :=
  rows.reverse.find? p

/-! ### Schema well-formedness

Under these hypotheses the embedding's total `getCol` coincides with
Python's (raising) dict access: every required column is present, and rows
are rectangular so `DictReader` pairs every header column with a cell. -/

/-- Every data row has exactly one cell per header column. -/
def Rect (f : CSVFile) : Prop := ∀ r ∈ f.rows, r.length = f.header.length

instance (f : CSVFile) : Decidable (Rect f) := by unfold Rect; infer_instance

/-- The columns of the judgement table schema. -/
def judgementCols : List String :=
  ["product_id", "product_name", "category", "video_url", "thumbnail_url",
   "ground_truth_image_url", "label", "reason"]

/-- The label values the code knows: keys of the label-count dict, the
generator's label pool, and the valid values for an override. -/
def knownLabels : List String := ["Yes", "N/A", "No"]

/-- How often a label value occurs among the judgement rows. -/
def labelCount (rows : List Row) (l : String) : Nat :=
  (rows.filter fun r => getCol r "label" == l).length

/-! ### Synthetic table generator (`create_sample_csv`)

Python renders numbers in decimal via `str`, zero-padding the product id to
width 4.  We model decimal rendering explicitly with a fuel-based digit
expansion (fuel `n` suffices since the argument shrinks by division). -/

/-- Big-endian decimal digits of `n`; empty for `0`. -/
def decDigitsAux : Nat → Nat → List Nat
  | 0, _ => []
  | fuel + 1, n => if n = 0 then [] else decDigitsAux fuel (n / 10) ++ [n % 10]

/-- Big-endian decimal digits of `n`; empty for `0`. -/
def decDigits (n : Nat) : List Nat := decDigitsAux n n

/-- The character for one decimal digit. -/
def digitChar (d : Nat) : Char := Char.ofNat (48 + d)

/-- Decimal rendering of a natural number, as Python `str` produces. -/
def decChars (n : Nat) : List Char :=
  if n = 0 then ['0'] else (decDigits n).map digitChar

/-- Decimal rendering of a natural number, as Python `str` produces. -/
def decStr (n : Nat) : String := String.mk (decChars n)

/-- The Python format spec `04d`: left-pad with zeros to width 4. -/
def pad4 (l : List Char) : List Char := List.replicate (4 - l.length) '0' ++ l

/-- The product identifier written for row index `i`. -/
def pidStr (i : Nat) : String := String.mk ('P' :: pad4 (decChars i))

/-- Numeric value of a digit character (proof-side inverse of `digitChar`). -/
def charToDigit (c : Char) : Nat := c.toNat - 48

/-- Value of a big-endian digit list (proof-side inverse of `decDigits`). -/
def ofDigitsBE (ds : List Nat) : Nat := ds.foldl (fun a d => 10 * a + d) 0

/-- The category pool of the generator. -/
def CATEGORIES : List String := ["Electronics", "Clothing", "Home & Garden", "Sports", "Books"]

/-- The brand pool of the generator. -/
def BRANDS : List String := ["BrandA", "BrandB", "BrandC", "BrandD", "BrandE"]

/-- The table kinds stored per (uuid, model). -/
inductive TableKind
  | video_description
  | product_info
  | judgement
deriving DecidableEq, Repr

/-- The fixed header row written for each table kind. -/
def fixedHeader : TableKind → List String
  | .video_description => ["product_id", "description_key1", "description_key2", "description_key3"]
  | .product_info => ["product_id", "brand", "price", "spec", "category"]
  | .judgement => judgementCols

/-- The `reasons[label]` template of the judgement generator; the label is
always drawn from the three-element pool, so an if-chain models the dict. -/
def judgementReason (label : String) (i : Nat) : String :=
  if label == "Yes" then "Product clearly matches criteria " ++ decStr i
  else if label == "N/A" then "Product information insufficient for determination " ++ decStr i
  else "Product does not meet the required standards " ++ decStr i

/-- The data row `create_sample_csv` writes for index `i` (indices run from
1 to the item count); `rand` models `random.choice` on the label pool, the
only randomness in the file. -/
def sampleRow (kind : TableKind) (rand : Nat → Fin 3) (i : Nat) : List String :=
  match kind with
  | .video_description =>
      [pidStr i, "Video shows product features " ++ decStr i,
       "Duration: " ++ decStr (30 + i % 60) ++ " seconds",
       "Quality: " ++ (if i % 3 == 0 then "HD" else "Standard")]
  | .product_info =>
      [pidStr i, BRANDS.getD (i % 5) "", "$" ++ decStr (i * 10 % 500 + 20),
       "Model-" ++ decStr i ++ "-XL", CATEGORIES.getD (i % 5) ""]
  | .judgement =>
      let label := knownLabels.getD (rand i).1 ""
      [pidStr i, "Sample Product " ++ decStr i, CATEGORIES.getD (i % 5) "",
       "http://example.com/video" ++ decStr i ++ ".mp4",
       "http://example.com/thumb" ++ decStr i ++ ".jpg",
       "http://example.com/gt" ++ decStr i ++ ".jpg",
       label, judgementReason label i]

/-- The content `create_sample_csv` writes: the fixed header for the kind
and one generated row per index in `range(1, num_items + 1)`.  The write
itself is unconditional (mode `w`), modelled by `FS.set` at the call sites
replacing whatever file was there. -/
def create_sample_csv (kind : TableKind) (rand : Nat → Fin 3) (numItems : Nat) : CSVFile :=
  ⟨fixedHeader kind, (List.range' 1 numItems).map (sampleRow kind rand)⟩

/-! ### Filesystem and endpoints -/

/-- The 12 model-variant names accepted by every endpoint taking `model`. -/
def MODEL_NAMES : List String :=
  ["qwen_CoT_video_image_info",
   "qwen_CoT_video_image_raw",
   "qwen_CoT_description_info",
   "qwen_video_image_info",
   "qwen_video_image_raw",
   "qwen_description_info",
   "smol_CoT_video_image_info",
   "smol_CoT_video_image_raw",
   "smol_CoT_description_info",
   "smol_video_image_info",
   "smol_video_image_raw",
   "smol_description_info"]

/-- The data directory: which CSV file, if any, exists for each
(session uuid, model, table kind).  Directories themselves carry no data
relevant to the claims and are not modelled. -/
structure FS where
  tables : String → String → TableKind → Option CSVFile

/-- Writing one CSV file (open with mode `w`): unconditionally replaces
whatever was stored at that path. -/
def FS.set (fs : FS) (u m : String) (k : TableKind) (f : CSVFile) : FS :=
  ⟨fun u' m' k' => if u' = u ∧ m' = m ∧ k' = k then some f else fs.tables u' m' k'⟩

/-- Python truthiness of an optional request field (`not x` is true for an
absent field and for the empty string). -/
def truthy : Option String → Bool
  | none => false
  | some s => !(s == "")

/-- The HTTP status attached to an error response. -/
def errorStatus {α : Type} : Except (Nat × String) α → Option Nat
  | .error e => some e.1
  | .ok _ => none

/-- `POST /make_video_description`: validate, then generate and write the
table.  The generator's `rand` argument is irrelevant to this kind. -/
def make_video_description (fs : FS) (uuid model : Option String) :
    Except (Nat × String) Unit × FS :=
  if !(truthy uuid && truthy model) then (.error (400, "Missing uuid or model"), fs)
  else if !(MODEL_NAMES.contains (model.getD "")) then (.error (400, "Invalid model name"), fs)
  else (.ok (), fs.set (uuid.getD "") (model.getD "") .video_description
    (create_sample_csv .video_description (fun _ => 0) 50))

/-- `POST /make_product_info`: validate, then generate and write the table. -/
def make_product_info (fs : FS) (uuid model : Option String) :
    Except (Nat × String) Unit × FS :=
  if !(truthy uuid && truthy model) then (.error (400, "Missing uuid or model"), fs)
  else if !(MODEL_NAMES.contains (model.getD "")) then (.error (400, "Invalid model name"), fs)
  else (.ok (), fs.set (uuid.getD "") (model.getD "") .product_info
    (create_sample_csv .product_info (fun _ => 0) 50))

/-- `POST /judge`: validate, then generate and write the judgement table;
`rand` models the unseeded `random.choice` over the label pool. -/
def judge (fs : FS) (uuid model : Option String) (rand : Nat → Fin 3) :
    Except (Nat × String) Unit × FS :=
  if !(truthy uuid && truthy model) then (.error (400, "Missing uuid or model"), fs)
  else if !(MODEL_NAMES.contains (model.getD "")) then (.error (400, "Invalid model name"), fs)
  else (.ok (), fs.set (uuid.getD "") (model.getD "") .judgement
    (create_sample_csv .judgement rand 50))

/-- `complete` when the probed file exists, `pending` otherwise. -/
def statusEntry (present : Bool) : String := if present then "complete" else "pending"

/-- `GET /status`: validate, then report a pure existence probe per table. -/
def get_status (fs : FS) (uuid model : Option String) :
    Except (Nat × String) (List (String × String)) :=
  if !(truthy uuid && truthy model) then .error (400, "Missing uuid or model")
  else if !(MODEL_NAMES.contains (model.getD "")) then .error (400, "Invalid model name")
  else
    .ok [("video_description_csv",
          statusEntry (fs.tables (uuid.getD "") (model.getD "") .video_description).isSome),
         ("product_info_csv",
          statusEntry (fs.tables (uuid.getD "") (model.getD "") .product_info).isSome),
         ("judgement_csv",
          statusEntry (fs.tables (uuid.getD "") (model.getD "") .judgement).isSome)]

/-- `GET /results`: validate, require all three tables to exist, then run
the aggregation; a GET endpoint, so the filesystem is untouched. -/
def get_results (fs : FS) (uuid model : Option String) :
    Except (Nat × String) (List (String × Nat) × List Item) :=
  if !(truthy uuid && truthy model) then .error (400, "Missing uuid or model")
  else if !(MODEL_NAMES.contains (model.getD "")) then .error (400, "Invalid model name")
  else
    match fs.tables (uuid.getD "") (model.getD "") .video_description,
        fs.tables (uuid.getD "") (model.getD "") .product_info,
        fs.tables (uuid.getD "") (model.getD "") .judgement with
    | some vd, some pinfo, some jd => .ok (aggregate_core vd pinfo jd)
    | _, _, _ => .error (400, "Not all required CSV files exist")

/-- The loop body of `override_label` on one DictReader row: rewrite the
label of a row whose `product_id` matches, leave other rows alone. -/
def overrideRow (pid nl : String) (r : Row) : Row :=
  if getCol r "product_id" == pid then dictInsert r "label" nl else r

/-- `csv.DictWriter` writing one row under the given fieldnames: one cell
per field, a missing key producing the empty-string default. -/
def writeRow (fieldnames : List String) (r : Row) : List String :=
  fieldnames.map fun k => getCol r k

/-- `POST /override_label`: validate, require the judgement table, read all
rows rewriting matching labels, then — only when at least one row was
loaded — rewrite the file with the first loaded row's keys as fieldnames.
The boolean records whether the file write happened. -/
def override_label (fs : FS) (uuid model product_id new_label : Option String) :
    Except (Nat × String) Unit × FS × Bool :=
  if !(truthy uuid && truthy model && truthy product_id && truthy new_label) then
    (.error (400, "Missing required parameters"), fs, false)
  else if !(MODEL_NAMES.contains (model.getD "")) then
    (.error (400, "Invalid model name"), fs, false)
  else if !(knownLabels.contains (new_label.getD "")) then
    (.error (400, "Invalid label"), fs, false)
  else
    match fs.tables (uuid.getD "") (model.getD "") .judgement with
    | none => (.error (400, "Judgement CSV not found"), fs, false)
    | some f =>
      match (dictRows f).map (overrideRow (product_id.getD "") (new_label.getD "")) with
      | [] => (.ok (), fs, false)
      | r0 :: _ =>
        (.ok (), fs.set (uuid.getD "") (model.getD "") .judgement
          ⟨r0.map Prod.fst,
           ((dictRows f).map (overrideRow (product_id.getD "") (new_label.getD ""))).map
             (writeRow (r0.map Prod.fst))⟩, true)

/-- `POST /clear`: remove the whole session tree (a no-op success when the
directory is already absent). -/
def clear_all (fs : FS) (uuid : Option String) : Except (Nat × String) Unit × FS :=
  if !(truthy uuid) then (.error (400, "Missing uuid"), fs)
  else (.ok (), ⟨fun u' m' k' => if u' = uuid.getD "" then none else fs.tables u' m' k'⟩)

/-! ### Concrete tables, mirroring the worked example of the specification:
`video_description` rows for P0001 and P0002, `product_info` rows for P0001
and P0003, and `judgement` rows in the order P0002, P0001, P0003. -/

/-- Witness `video_description` table. -/
def vdW : CSVFile :=
  ⟨["product_id", "description_key1", "description_key2", "description_key3"],
   [["P0001", "a1", "a2", "a3"], ["P0002", "b1", "b2", "b3"]]⟩

/-- Witness `product_info` table. -/
def piW : CSVFile :=
  ⟨["product_id", "brand", "price", "spec", "category"],
   [["P0001", "BrandA", "$30", "M1", "Books"], ["P0003", "BrandB", "$40", "M3", "Sports"]]⟩

/-- Witness `judgement` table. -/
def jdW : CSVFile :=
  ⟨judgementCols,
   [["P0002", "n2", "c2", "v2", "t2", "g2", "Yes", "r2"],
    ["P0001", "n1", "c1", "v1", "t1", "g1", "No", "r1"],
    ["P0003", "n3", "c3", "v3", "t3", "g3", "Yes", "r3"]]⟩

/-- A data directory holding only the witness judgement table. -/
def fsW : FS :=
  ⟨fun u m k =>
    if u = "session-1" ∧ m = "qwen_CoT_video_image_info" ∧ k = TableKind.judgement then
      some jdW
    else none⟩

/-- The empty data directory. -/
def fsEmpty : FS := ⟨fun _ _ _ => none⟩

/-! ### Association-list lemmas -/

theorem dictGet_nil {α : Type} (k : String) : dictGet ([] : List (String × α)) k = none := rfl

theorem dictGet_cons {α : Type} (p : String × α) (m : List (String × α)) (k : String) :
    dictGet (p :: m) k = if p.1 == k then some p.2 else dictGet m k := by
  by_cases h : p.1 == k <;> simp [dictGet, List.find?_cons, h]

theorem dictGet_dictInsert_self {α : Type} (m : List (String × α)) (k : String) (v : α) :
    dictGet (dictInsert m k v) k = some v := by
  induction m with
  | nil => simp [dictInsert, dictGet_cons]
  | cons p rest ih =>
    by_cases h : p.1 == k
    · simp [dictInsert, h, dictGet_cons]
    · simp [dictInsert, h, dictGet_cons, ih]

theorem dictGet_dictInsert_ne {α : Type} (m : List (String × α)) (k k' : String) (v : α)
    (hne : k' ≠ k) : dictGet (dictInsert m k v) k' = dictGet m k' := by
  induction m with
  | nil =>
    simp [dictInsert, dictGet_cons, dictGet_nil]
    intro h
    exact absurd h.symm hne
  | cons p rest ih =>
    by_cases h : p.1 == k
    · have hpk : p.1 = k := by simpa using h
      simp [dictInsert, h, dictGet_cons, hpk, Ne.symm hne]
    · simp [dictInsert, h, dictGet_cons, ih]

/-- Folding `dictInsert` over rows: looking the key up afterwards finds the
last inserted value for that key, falling back to the initial map. -/
theorem dictGet_loadKeyed_go (rows : List Row) (m : List (String × Row)) (k : String) :
    dictGet (rows.foldl (fun m r => dictInsert m (getCol r "product_id") (stripId r)) m) k =
      match rows.reverse.find? (fun r => getCol r "product_id" == k) with
      | some r => some (stripId r)
      | none => dictGet m k := by
  induction rows generalizing m with
  | nil => simp
  | cons r rs ih =>
    simp only [List.foldl_cons, ih, List.reverse_cons, List.find?_append]
    cases hfind : rs.reverse.find? fun r => getCol r "product_id" == k with
    | some r' => simp [Option.orElse]
    | none =>
      by_cases h : getCol r "product_id" == k
      · have : getCol r "product_id" = k := by simpa using h
        simp [Option.orElse, List.find?, h, this, dictGet_dictInsert_self]
      · have : k ≠ getCol r "product_id" := by
          intro he
          exact absurd (by simpa using he.symm) h
        simp [Option.orElse, List.find?, h, dictGet_dictInsert_ne _ _ _ _ this]

/-! ### Aggregation lemmas -/

theorem aggregate_go_items (vmap pmap : List (String × Row)) (rows : List Row)
    (acc : List (String × Nat) × List Item) :
    (rows.foldl
      (fun acc r => (bumpLabel acc.1 (getCol r "label"), acc.2 ++ [itemOfRow vmap pmap r]))
      acc).2 = acc.2 ++ rows.map (itemOfRow vmap pmap) := by
  induction rows generalizing acc with
  | nil => simp
  | cons r rs ih => simp [ih]

theorem bumpLabel_triple (a b c : Nat) (l : String) :
    bumpLabel [("Yes", a), ("N/A", b), ("No", c)] l =
      [("Yes", if l = "Yes" then a + 1 else a),
       ("N/A", if l = "N/A" then b + 1 else b),
       ("No", if l = "No" then c + 1 else c)] := by
  rcases eq_or_ne l "Yes" with h1 | h1
  · subst h1; simp [bumpLabel, dictGet_cons]
  · rcases eq_or_ne l "N/A" with h2 | h2
    · subst h2; simp [bumpLabel, dictGet_cons]
    · rcases eq_or_ne l "No" with h3 | h3
      · subst h3; simp [bumpLabel, dictGet_cons]
      · simp [bumpLabel, dictGet_cons, dictGet_nil, h1, h2, h3,
          Ne.symm h1, Ne.symm h2, Ne.symm h3]

theorem aggregate_go_counts (vmap pmap : List (String × Row)) (rows : List Row)
    (a b c : Nat) (items : List Item) :
    (rows.foldl
      (fun acc r => (bumpLabel acc.1 (getCol r "label"), acc.2 ++ [itemOfRow vmap pmap r]))
      ([("Yes", a), ("N/A", b), ("No", c)], items)).1 =
      [("Yes", a + labelCount rows "Yes"), ("N/A", b + labelCount rows "N/A"),
       ("No", c + labelCount rows "No")] := by
  induction rows generalizing a b c items with
  | nil => simp [labelCount]
  | cons r rs ih =>
    simp only [List.foldl_cons, bumpLabel_triple, ih, labelCount, List.filter_cons]
    rcases eq_or_ne (getCol r "label") "Yes" with h1 | h1 <;>
      rcases eq_or_ne (getCol r "label") "N/A" with h2 | h2 <;>
        rcases eq_or_ne (getCol r "label") "No" with h3 | h3 <;>
          simp_all <;> omega

theorem labelCount_known_sum (rows : List Row) :
    labelCount rows "Yes" + labelCount rows "N/A" + labelCount rows "No" =
      (rows.filter fun r => knownLabels.contains (getCol r "label")).length := by
  induction rows with
  | nil => simp [labelCount]
  | cons r rs ih =>
    simp only [labelCount, List.filter_cons, knownLabels] at *
    rcases eq_or_ne (getCol r "label") "Yes" with h1 | h1 <;>
      rcases eq_or_ne (getCol r "label") "N/A" with h2 | h2 <;>
        rcases eq_or_ne (getCol r "label") "No" with h3 | h3 <;>
          simp_all <;> omega

theorem contains_eq_true_iff (l : List String) (s : String) :
    l.contains s = true ↔ s ∈ l :=
  List.elem_iff

/-! ### Claim theorems -/

/-- C5: loading a single table into a keyed mapping (as `get_results` does
for `video_description` and `product_info`) follows last-row-wins: the
entry found for a product id is exactly the non-key projection of the last
row in file order bearing that id (and no entry exists when no row bears
it), so a later duplicate row overwrites an earlier one. -/
theorem C5_keyed_load_last_row_wins (f : CSVFile) (k : String) :
    dictGet (loadKeyed f) k =
      match lastMatch (dictRows f) (fun r => getCol r "product_id" == k) with
      | some r => some (stripId r)
      | none => none := by
  unfold loadKeyed lastMatch
  rw [dictGet_loadKeyed_go]
  cases (dictRows f).reverse.find? fun r => getCol r "product_id" == k <;>
    simp [dictGet_nil]

/-- C1: the aggregation behind `GET /results` emits exactly one item per
judgement row, in judgement-file order (a left join driven by the
judgement table, so unmatched judgement rows are still emitted), each item
carrying the judgement row's own fields plus the matching
`video_description` and `product_info` entries — or an empty mapping when
the keyed table has no entry for the row's product id.  The hypotheses say
the three files are rectangular with the schema columns present, which is
when the Python dict accesses succeed. -/
theorem C1_results_left_join_order (vd pinfo jd : CSVFile)
    (hvd : "product_id" ∈ vd.header) (hvdr : Rect vd)
    (hpi : "product_id" ∈ pinfo.header) (hpir : Rect pinfo)
    (hjd : ∀ c ∈ judgementCols, c ∈ jd.header) (hjdr : Rect jd) :
    (aggregate_core vd pinfo jd).2 =
        (dictRows jd).map (itemOfRow (loadKeyed vd) (loadKeyed pinfo)) ∧
    (aggregate_core vd pinfo jd).2.length = (dictRows jd).length ∧
    ∀ r ∈ dictRows jd,
      (itemOfRow (loadKeyed vd) (loadKeyed pinfo) r).product_id = getCol r "product_id" ∧
      (itemOfRow (loadKeyed vd) (loadKeyed pinfo) r).label = getCol r "label" ∧
      (∀ d, dictGet (loadKeyed vd) (getCol r "product_id") = some d →
          (itemOfRow (loadKeyed vd) (loadKeyed pinfo) r).video_description = d) ∧
      (dictGet (loadKeyed vd) (getCol r "product_id") = none →
          (itemOfRow (loadKeyed vd) (loadKeyed pinfo) r).video_description = []) ∧
      (∀ d, dictGet (loadKeyed pinfo) (getCol r "product_id") = some d →
          (itemOfRow (loadKeyed vd) (loadKeyed pinfo) r).product_info = d) ∧
      (dictGet (loadKeyed pinfo) (getCol r "product_id") = none →
          (itemOfRow (loadKeyed vd) (loadKeyed pinfo) r).product_info = []) := by
  refine ⟨?_, ?_, ?_⟩
  · unfold aggregate_core
    rw [aggregate_go_items]
    simp
  · unfold aggregate_core
    rw [aggregate_go_items]
    simp
  · intro r hr
    refine ⟨rfl, rfl, ?_, ?_, ?_, ?_⟩
    · intro d h; simp [itemOfRow, h]
    · intro h; simp [itemOfRow, h]
    · intro d h; simp [itemOfRow, h]
    · intro h; simp [itemOfRow, h]

/-- C2: the counts mapping of the aggregation has exactly the keys `Yes`,
`N/A`, `No` in that order, each equal to the number of judgement rows
bearing that label; their sum is the number of rows with a known label,
while the item list has one entry per row — rows with an unknown label are
counted nowhere yet still produce an item. -/
theorem C2_results_counts (vd pinfo jd : CSVFile)
    (hjdl : "label" ∈ jd.header) (hjdp : "product_id" ∈ jd.header) (hjdr : Rect jd) :
    (aggregate_core vd pinfo jd).1 =
      [("Yes", labelCount (dictRows jd) "Yes"), ("N/A", labelCount (dictRows jd) "N/A"),
       ("No", labelCount (dictRows jd) "No")] ∧
    (aggregate_core vd pinfo jd).1.map Prod.fst = ["Yes", "N/A", "No"] ∧
    labelCount (dictRows jd) "Yes" + labelCount (dictRows jd) "N/A" +
        labelCount (dictRows jd) "No" =
      ((dictRows jd).filter fun r => knownLabels.contains (getCol r "label")).length ∧
    (aggregate_core vd pinfo jd).2.length = (dictRows jd).length := by
  have hc : (aggregate_core vd pinfo jd).1 =
      [("Yes", labelCount (dictRows jd) "Yes"), ("N/A", labelCount (dictRows jd) "N/A"),
       ("No", labelCount (dictRows jd) "No")] := by
    unfold aggregate_core initCounts
    rw [aggregate_go_counts]
    simp
  refine ⟨hc, by rw [hc]; rfl, labelCount_known_sum _, ?_⟩
  unfold aggregate_core
  rw [aggregate_go_items]
  simp

/-- C3: when at least one of the three tables for (session, model) is
missing, `GET /results` answers with the 400 missing-prerequisite error and
nothing else — the response is one constant, independent of the contents of
whatever tables do exist, so no table is read and no partial output is
produced; table contents enter the response only on the branch where all
three files exist. -/
theorem C3_results_missing_prerequisite (fs : FS) (u m : String)
    (hu : u ≠ "") (hm : m ∈ MODEL_NAMES)
    (hmiss : ¬((fs.tables u m .video_description).isSome ∧
        (fs.tables u m .product_info).isSome ∧ (fs.tables u m .judgement).isSome)) :
    get_results fs (some u) (some m) = .error (400, "Not all required CSV files exist") := by
  have hcont : MODEL_NAMES.contains m = true := (contains_eq_true_iff _ _).2 hm
  have hm0 : m ≠ "" := by
    rintro rfl
    revert hm
    decide
  unfold get_results
  cases hv : fs.tables u m .video_description with
  | none => simp [truthy, hu, hm0, hcont, hm, hv]
  | some vdf =>
    cases hp : fs.tables u m .product_info with
    | none => simp [truthy, hu, hm0, hcont, hm, hv, hp]
    | some pif =>
      cases hj : fs.tables u m .judgement with
      | none => simp [truthy, hu, hm0, hcont, hm, hv, hp, hj]
      | some jdf => exact absurd ⟨by simp [hv], by simp [hp], by simp [hj]⟩ hmiss

/-- C7 as frozen is false on the code: the status mapping's keys carry a
`_csv` suffix (`video_description_csv`, `product_info_csv`,
`judgement_csv`), not the bare table names the claim states; at the empty
filesystem with a valid session and model the returned key list differs
from the claimed one. -/
theorem C7_counterexample :
    ∃ st, get_status ⟨fun _ _ _ => none⟩ (some "u") (some "qwen_CoT_video_image_info") =
        .ok st ∧
      st.map Prod.fst = ["video_description_csv", "product_info_csv", "judgement_csv"] ∧
      st.map Prod.fst ≠ ["video_description", "product_info", "judgement"] := by
  refine ⟨[("video_description_csv", "pending"), ("product_info_csv", "pending"),
    ("judgement_csv", "pending")], by rfl, by rfl, by decide⟩

/-- C7 amended: for a valid model name, `GET /status` returns the mapping
with exactly the three keys `video_description_csv`, `product_info_csv`,
`judgement_csv` (in that order), each `complete` when the corresponding
file exists and `pending` otherwise; the answer depends only on the
existence bits of the three tables, never on their contents, and after
clearing the session all three report `pending`. -/
theorem C7_status_existence_probe (fs : FS) (u m : String)
    (hu : u ≠ "") (hm : m ∈ MODEL_NAMES) :
    get_status fs (some u) (some m) = .ok
      [("video_description_csv", statusEntry (fs.tables u m .video_description).isSome),
       ("product_info_csv", statusEntry (fs.tables u m .product_info).isSome),
       ("judgement_csv", statusEntry (fs.tables u m .judgement).isSome)] ∧
    (∀ fs' : FS, (∀ k, (fs'.tables u m k).isSome = (fs.tables u m k).isSome) →
      get_status fs' (some u) (some m) = get_status fs (some u) (some m)) ∧
    get_status (clear_all fs (some u)).2 (some u) (some m) = .ok
      [("video_description_csv", "pending"), ("product_info_csv", "pending"),
       ("judgement_csv", "pending")] := by
  have hcont : MODEL_NAMES.contains m = true := (contains_eq_true_iff _ _).2 hm
  have hm0 : m ≠ "" := by
    rintro rfl
    revert hm
    decide
  refine ⟨?_, ?_, ?_⟩
  · simp [get_status, truthy, hu, hm0, hcont, hm]
  · intro fs' h
    simp [get_status, truthy, hu, hm0, hcont, hm, h]
  · simp [get_status, clear_all, truthy, hu, hm0, hcont, hm, statusEntry]

/-- C9: on each of the six endpoints that accept a `model` parameter, a
model value outside the 12-name set is answered with HTTP 400 and the
filesystem is untouched, whatever the other fields hold (the GET endpoints
`status` and `results` never return a filesystem at all, being pure
functions of it). -/
theorem C9_invalid_model_rejected (fs : FS) (uuid pidv nl : Option String) (m : String)
    (rand : Nat → Fin 3) (hm : m ∉ MODEL_NAMES) :
    errorStatus (make_video_description fs uuid (some m)).1 = some 400 ∧
    (make_video_description fs uuid (some m)).2 = fs ∧
    errorStatus (make_product_info fs uuid (some m)).1 = some 400 ∧
    (make_product_info fs uuid (some m)).2 = fs ∧
    errorStatus (judge fs uuid (some m) rand).1 = some 400 ∧
    (judge fs uuid (some m) rand).2 = fs ∧
    errorStatus (get_status fs uuid (some m)) = some 400 ∧
    errorStatus (get_results fs uuid (some m)) = some 400 ∧
    errorStatus (override_label fs uuid (some m) pidv nl).1 = some 400 ∧
    (override_label fs uuid (some m) pidv nl).2.1 = fs := by
  have hcont : MODEL_NAMES.contains m = false := by
    cases h' : MODEL_NAMES.contains m with
    | false => rfl
    | true => exact absurd ((contains_eq_true_iff _ _).1 h') hm
  refine ⟨?_, ?_, ?_, ?_, ?_, ?_, ?_, ?_, ?_, ?_⟩
  · cases htr : truthy uuid && truthy (some m) <;>
      simp [make_video_description, htr, hm, errorStatus]
  · cases htr : truthy uuid && truthy (some m) <;>
      simp [make_video_description, htr, hm, errorStatus]
  · cases htr : truthy uuid && truthy (some m) <;>
      simp [make_product_info, htr, hm, errorStatus]
  · cases htr : truthy uuid && truthy (some m) <;>
      simp [make_product_info, htr, hm, errorStatus]
  · cases htr : truthy uuid && truthy (some m) <;>
      simp [judge, htr, hm, errorStatus]
  · cases htr : truthy uuid && truthy (some m) <;>
      simp [judge, htr, hm, errorStatus]
  · cases htr : truthy uuid && truthy (some m) <;>
      simp [get_status, htr, hm, errorStatus]
  · cases htr : truthy uuid && truthy (some m) <;>
      simp [get_results, htr, hm, errorStatus]
  · cases htr : truthy uuid && truthy (some m) && truthy pidv && truthy nl <;>
      simp [override_label, htr, hm, errorStatus]
  · cases htr : truthy uuid && truthy (some m) && truthy pidv && truthy nl <;>
      simp [override_label, htr, hm, errorStatus]

/-- C8: the table generator emits exactly `count` data rows below the fixed
header of its kind, and the generation endpoints write the 50-row default
table to the target path with no hypothesis about what was stored there —
the write is unconditional, so regenerating replaces the previous content,
including any label overrides a judgement table had received. -/
theorem C8_generator_count_and_unconditional_overwrite (kind : TableKind) (n : Nat)
    (rand : Nat → Fin 3) (fs : FS) (u m : String) (hu : u ≠ "") (hm : m ∈ MODEL_NAMES) :
    (create_sample_csv kind rand n).header = fixedHeader kind ∧
    (create_sample_csv kind rand n).rows.length = n ∧
    (judge fs (some u) (some m) rand).2.tables u m .judgement =
      some (create_sample_csv .judgement rand 50) ∧
    (make_video_description fs (some u) (some m)).2.tables u m .video_description =
      some (create_sample_csv .video_description (fun _ => 0) 50) ∧
    (make_product_info fs (some u) (some m)).2.tables u m .product_info =
      some (create_sample_csv .product_info (fun _ => 0) 50) := by
  have hcont : MODEL_NAMES.contains m = true := (contains_eq_true_iff _ _).2 hm
  have hm0 : m ≠ "" := by
    rintro rfl
    revert hm
    decide
  refine ⟨rfl, ?_, ?_, ?_, ?_⟩
  · simp [create_sample_csv]
  · simp [judge, truthy, hu, hm0, hcont, hm, FS.set]
  · simp [make_video_description, truthy, hu, hm0, hcont, hm, FS.set]
  · simp [make_product_info, truthy, hu, hm0, hcont, hm, FS.set]

/-! ### Read-modify-write lemmas for the override path -/

theorem getCol_cons_self (k v : String) (r : Row) : getCol ((k, v) :: r) k = v := by
  simp [getCol, dictGet_cons]

theorem getCol_cons_ne (p : String × String) (r : Row) (k : String) (h : p.1 ≠ k) :
    getCol (p :: r) k = getCol r k := by
  simp [getCol, dictGet_cons, h]

/-- The keys of a `DictReader` row are exactly the header, for rectangular
files. -/
theorem keys_of_dictRows (f : CSVFile) (hrect : Rect f) (r : Row) (hr : r ∈ dictRows f) :
    r.map Prod.fst = f.header := by
  unfold dictRows at hr
  rcases List.mem_map.1 hr with ⟨row, hrow, rfl⟩
  exact List.map_fst_zip _ _ (le_of_eq (hrect row hrow).symm)

theorem dictInsert_keys_of_mem {α : Type} (m : List (String × α)) (k : String) (v : α)
    (h : k ∈ m.map Prod.fst) : (dictInsert m k v).map Prod.fst = m.map Prod.fst := by
  induction m with
  | nil => simp at h
  | cons p rest ih =>
    by_cases hp : p.1 == k
    · have hpk : p.1 = k := by simpa using hp
      simp [dictInsert, hp, hpk]
    · have hpk : ¬(k = p.1) := fun he => by simp [he] at hp
      rw [List.map_cons] at h
      have hk : k ∈ rest.map Prod.fst := by
        rcases List.mem_cons.1 h with h' | h'
        · exact absurd h' hpk
        · exact h'
      simp [dictInsert, hp, ih hk]

theorem overrideRow_keys (pid nl : String) (r : Row) (h : "label" ∈ r.map Prod.fst) :
    (overrideRow pid nl r).map Prod.fst = r.map Prod.fst := by
  unfold overrideRow
  by_cases hc : getCol r "product_id" == pid
  · simp [hc, dictInsert_keys_of_mem _ _ _ h]
  · simp [hc]

/-- Rebuilding a row by looking its own keys up reproduces the row, when the
keys are distinct. -/
theorem map_getCol_self (r : Row) (hnd : (r.map Prod.fst).Nodup) :
    (r.map Prod.fst).map (fun k => (k, getCol r k)) = r := by
  induction r with
  | nil => rfl
  | cons p rest ih =>
    have hmem : p.1 ∉ rest.map Prod.fst := (List.nodup_cons.1 (by simpa using hnd)).1
    have hnd' : (rest.map Prod.fst).Nodup := (List.nodup_cons.1 (by simpa using hnd)).2
    have hhead : getCol (p :: rest) p.1 = p.2 := by
      rcases p with ⟨k, v⟩
      exact getCol_cons_self k v rest
    have htail : ∀ k ∈ rest.map Prod.fst,
        (fun k => (k, getCol (p :: rest) k)) k = (fun k => (k, getCol rest k)) k := by
      intro k hk
      have : p.1 ≠ k := fun he => hmem (he ▸ hk)
      simp [getCol_cons_ne _ _ _ this]
    simp only [List.map_cons, hhead, List.map_congr_left htail, ih hnd']

theorem zip_map_self {α β : Type} (l : List α) (g : α → β) :
    l.zip (l.map g) = l.map fun a => (a, g a) := by
  induction l with
  | nil => rfl
  | cons a t ih => simp [ih]

/-- `DictWriter` then `DictReader`: writing a row under its own key list and
re-reading it reproduces the row. -/
theorem zip_writeRow_self (r : Row) (hnd : (r.map Prod.fst).Nodup) :
    (r.map Prod.fst).zip (writeRow (r.map Prod.fst) r) = r := by
  unfold writeRow
  rw [zip_map_self, map_getCol_self r hnd]

/-- `DictReader` then `DictWriter`: writing the cells of a freshly read row
back under the header reproduces the original cells. -/
theorem map_getCol_zip (hdr row : List String)
    (hnd : hdr.Nodup) (hlen : row.length = hdr.length) :
    hdr.map (fun k => getCol (hdr.zip row) k) = row := by
  induction hdr generalizing row with
  | nil =>
    cases row with
    | nil => rfl
    | cons v vt => simp at hlen
  | cons k kt ih =>
    cases row with
    | nil => simp at hlen
    | cons v vt =>
      have hmem : k ∉ kt := (List.nodup_cons.1 hnd).1
      have htail : ∀ k' ∈ kt,
          (fun c => getCol ((k, v) :: kt.zip vt) c) k' =
            (fun c => getCol (kt.zip vt) c) k' := by
        intro k' hk'
        refine getCol_cons_ne _ _ _ (fun he => hmem ?_)
        have he' : k = k' := he
        rw [he']
        exact hk'
      simp only [List.zip_cons_cons, List.map_cons, getCol_cons_self,
        List.map_congr_left htail, ih vt (List.nodup_cons.1 hnd).2 (by simpa using hlen)]

theorem overrideRow_label (pid nl : String) (r : Row)
    (h : "label" ∈ r.map Prod.fst) :
    getCol (overrideRow pid nl r) "label" =
      if getCol r "product_id" = pid then nl else getCol r "label" := by
  unfold overrideRow
  by_cases hc : getCol r "product_id" = pid
  · rw [if_pos (by simp [hc]), if_pos hc]
    simp [getCol, dictGet_dictInsert_self]
  · rw [if_neg (by simp [hc]), if_neg hc]

theorem overrideRow_other (pid nl : String) (r : Row) (c : String) (hc : c ≠ "label") :
    getCol (overrideRow pid nl r) c = getCol r c := by
  unfold overrideRow
  by_cases h : getCol r "product_id" = pid
  · rw [if_pos (by simp [h])]
    simp [getCol, dictGet_dictInsert_ne _ _ _ _ hc]
  · rw [if_neg (by simp [h])]

theorem overrideRow_nonmatching (pid nl : String) (r : Row)
    (h : getCol r "product_id" ≠ pid) : overrideRow pid nl r = r := by
  simp [overrideRow, h]

/-- C4: a successful override on an existing, nonempty judgement table
rewrites the label of every row whose `product_id` matches (not only the
first), leaves every non-matching row untouched, leaves every field other
than `label` untouched, keeps the number and order of rows, rewrites the
file under the column order of the first loaded row (which equals the
original header), and touches no other file. -/
theorem C4_override_rewrites_matching_labels (fs : FS) (u m pid nl : String) (f : CSVFile)
    (hu : u ≠ "") (hm : m ∈ MODEL_NAMES) (hpid : pid ≠ "") (hnl : nl ∈ knownLabels)
    (hf : fs.tables u m .judgement = some f)
    (hnd : f.header.Nodup) (hrect : Rect f)
    (hlblcol : "label" ∈ f.header) (hne : f.rows ≠ []) :
    ∃ g : CSVFile,
      override_label fs (some u) (some m) (some pid) (some nl) =
        (.ok (), fs.set u m .judgement g, true) ∧
      g.header = f.header ∧
      g.rows.length = f.rows.length ∧
      dictRows g = (dictRows f).map (overrideRow pid nl) ∧
      (∀ r ∈ dictRows f,
        getCol (overrideRow pid nl r) "label" =
          (if getCol r "product_id" = pid then nl else getCol r "label") ∧
        (∀ c, c ≠ "label" → getCol (overrideRow pid nl r) c = getCol r c) ∧
        (getCol r "product_id" ≠ pid → overrideRow pid nl r = r)) ∧
      (∀ u' m' k', ¬(u' = u ∧ m' = m ∧ k' = TableKind.judgement) →
        (override_label fs (some u) (some m) (some pid) (some nl)).2.1.tables u' m' k' =
          fs.tables u' m' k') := by
  have hm0 : m ≠ "" := by
    rintro rfl
    revert hm
    decide
  have hnl0 : nl ≠ "" := by
    rintro rfl
    revert hnl
    decide
  obtain ⟨row0, rtail, hfr⟩ : ∃ a t, f.rows = a :: t := by
    cases hr : f.rows with
    | nil => exact absurd hr hne
    | cons a t => exact ⟨a, t, rfl⟩
  have hd : dictRows f = f.header.zip row0 :: rtail.map (fun r => f.header.zip r) := by
    unfold dictRows
    rw [hfr]
    rfl
  have hd0mem : f.header.zip row0 ∈ dictRows f := by
    rw [hd]
    exact List.mem_cons_self _ _
  have hkeys : ∀ r ∈ dictRows f, r.map Prod.fst = f.header :=
    fun r hr => keys_of_dictRows f hrect r hr
  have hlbl : ∀ r ∈ dictRows f, "label" ∈ r.map Prod.fst := by
    intro r hr
    rw [hkeys r hr]
    exact hlblcol
  -- the fieldnames the rewrite uses: keys of the first (modified) row
  have hfn : (overrideRow pid nl (f.header.zip row0)).map Prod.fst = f.header := by
    rw [overrideRow_keys _ _ _ (hlbl _ hd0mem)]
    exact hkeys _ hd0mem
  have hokeys : ∀ r ∈ (dictRows f).map (overrideRow pid nl),
      r.map Prod.fst = f.header := by
    intro r hr
    rcases List.mem_map.1 hr with ⟨r', hr', rfl⟩
    rw [overrideRow_keys _ _ _ (hlbl _ hr')]
    exact hkeys _ hr'
  have heq : override_label fs (some u) (some m) (some pid) (some nl) =
      (.ok (), fs.set u m .judgement
        ⟨(overrideRow pid nl (f.header.zip row0)).map Prod.fst,
         ((dictRows f).map (overrideRow pid nl)).map
           (writeRow ((overrideRow pid nl (f.header.zip row0)).map Prod.fst))⟩, true) := by
    unfold override_label
    rw [if_neg (by simp [truthy, hu, hm0, hpid, hnl0]),
      if_neg (by simp [hm]), if_neg (by simp [hnl])]
    simp only [Option.getD_some, hf, hd, List.map_cons]
  refine ⟨_, heq, hfn, ?_, ?_, ?_, ?_⟩
  · show (((dictRows f).map (overrideRow pid nl)).map _).length = f.rows.length
    simp [dictRows]
  · show dictRows _ = (dictRows f).map (overrideRow pid nl)
    unfold dictRows
    simp only []
    rw [hfn]
    rw [List.map_map]
    refine (List.map_congr_left ?_).trans (List.map_id _)
    intro r hr
    have hk := hokeys r hr
    have : f.header.zip (writeRow f.header r) = r := by
      have := zip_writeRow_self r (by rw [hk]; exact hnd)
      rw [hk] at this
      exact this
    simpa [Function.comp] using this
  · intro r hr
    refine ⟨overrideRow_label pid nl r (hlbl r hr), fun c hc => overrideRow_other pid nl r c hc,
      fun hne' => overrideRow_nonmatching pid nl r hne'⟩
  · intro u' m' k' hne'
    rw [heq]
    simp only [FS.set]
    rw [if_neg hne']

/-- C6: overriding with valid parameters succeeds without touching the
table when no row matches the product id; on an existing-but-empty table
the rewrite is skipped (the write flag stays `false`) yet the call still
succeeds; and when the judgement table does not exist the call fails with
the table-not-found 400 error, leaving the filesystem as it was. -/
theorem C6_override_missing_id_and_table (fs : FS) (u m pid nl : String)
    (hu : u ≠ "") (hm : m ∈ MODEL_NAMES) (hpid : pid ≠ "") (hnl : nl ∈ knownLabels) :
    (fs.tables u m .judgement = none →
      override_label fs (some u) (some m) (some pid) (some nl) =
        (.error (400, "Judgement CSV not found"), fs, false)) ∧
    (∀ f : CSVFile, fs.tables u m .judgement = some f → f.rows = [] →
      override_label fs (some u) (some m) (some pid) (some nl) = (.ok (), fs, false)) ∧
    (∀ f : CSVFile, fs.tables u m .judgement = some f →
      f.header.Nodup → Rect f → "label" ∈ f.header →
      (∀ r ∈ dictRows f, getCol r "product_id" ≠ pid) →
      (override_label fs (some u) (some m) (some pid) (some nl)).1 = .ok () ∧
      (∀ u' m' k', (override_label fs (some u) (some m) (some pid) (some nl)).2.1.tables u' m' k' =
        fs.tables u' m' k')) := by
  have hm0 : m ≠ "" := by
    rintro rfl
    revert hm
    decide
  have hnl0 : nl ≠ "" := by
    rintro rfl
    revert hnl
    decide
  refine ⟨?_, ?_, ?_⟩
  · intro hj
    unfold override_label
    rw [if_neg (by simp [truthy, hu, hm0, hpid, hnl0]),
      if_neg (by simp [hm]), if_neg (by simp [hnl])]
    simp only [Option.getD_some, hj]
  · intro f hj hempty
    have hrows : (dictRows f).map (overrideRow pid nl) = [] := by
      unfold dictRows
      rw [hempty]
      rfl
    unfold override_label
    rw [if_neg (by simp [truthy, hu, hm0, hpid, hnl0]),
      if_neg (by simp [hm]), if_neg (by simp [hnl])]
    simp only [Option.getD_some, hj, hrows]
  · intro f hj hnd hrect hlblcol hnomatch
    have hid : (dictRows f).map (overrideRow pid nl) = dictRows f :=
      (List.map_congr_left
        (fun r hr => overrideRow_nonmatching pid nl r (hnomatch r hr))).trans
        (List.map_id _)
    cases hrows : dictRows f with
    | nil =>
      have hmap : (dictRows f).map (overrideRow pid nl) = [] := by
        rw [hid, hrows]
      have heq : override_label fs (some u) (some m) (some pid) (some nl) =
          (.ok (), fs, false) := by
        unfold override_label
        rw [if_neg (by simp [truthy, hu, hm0, hpid, hnl0]),
          if_neg (by simp [hm]), if_neg (by simp [hnl])]
        simp only [Option.getD_some, hj, hmap]
      rw [heq]
      exact ⟨rfl, fun _ _ _ => rfl⟩
    | cons d0 dtail =>
      have hkeys0 : d0.map Prod.fst = f.header :=
        keys_of_dictRows f hrect d0 (by rw [hrows]; exact List.mem_cons_self _ _)
      have hwrite : (dictRows f).map (writeRow (d0.map Prod.fst)) = f.rows := by
        rw [hkeys0]
        unfold dictRows
        rw [List.map_map]
        refine (List.map_congr_left ?_).trans (List.map_id _)
        intro row hrow
        have hwr : writeRow f.header (f.header.zip row) = row := by
          unfold writeRow
          exact map_getCol_zip f.header row hnd (hrect row hrow)
        simpa [Function.comp] using hwr
      have hgfile : (⟨d0.map Prod.fst,
          (d0 :: dtail).map (writeRow (d0.map Prod.fst))⟩ : CSVFile) = f := by
        rw [← hrows, hwrite, hkeys0]
      have hmap : (dictRows f).map (overrideRow pid nl) = d0 :: dtail := by
        rw [hid, hrows]
      have heq : override_label fs (some u) (some m) (some pid) (some nl) =
          (.ok (), fs.set u m .judgement f, true) := by
        unfold override_label
        rw [if_neg (by simp [truthy, hu, hm0, hpid, hnl0]),
          if_neg (by simp [hm]), if_neg (by simp [hnl])]
        simp only [Option.getD_some, hj, hmap]
        rw [hgfile]
      rw [heq]
      refine ⟨rfl, fun u' m' k' => ?_⟩
      by_cases hcase : u' = u ∧ m' = m ∧ k' = TableKind.judgement
      · obtain ⟨rfl, rfl, rfl⟩ := hcase
        simp [FS.set, hj]
      · simp [FS.set, hcase]

/-! ### Injectivity of the generated product identifiers -/

theorem decDigitsAux_lt_ten (fuel n : Nat) : ∀ d ∈ decDigitsAux fuel n, d < 10 := by
  induction fuel generalizing n with
  | zero => simp [decDigitsAux]
  | succ fuel ih =>
    intro d hd
    unfold decDigitsAux at hd
    by_cases hn : n = 0
    · simp [hn] at hd
    · rw [if_neg hn] at hd
      rcases List.mem_append.1 hd with h | h
      · exact ih _ d h
      · have : d = n % 10 := by simpa using h
        subst this
        exact Nat.mod_lt _ (by omega)

theorem ofDigitsBE_append_single (l : List Nat) (d : Nat) :
    ofDigitsBE (l ++ [d]) = 10 * ofDigitsBE l + d := by
  unfold ofDigitsBE
  rw [List.foldl_append]
  rfl

theorem ofDigitsBE_decDigitsAux (fuel n : Nat) (h : n ≤ fuel) :
    ofDigitsBE (decDigitsAux fuel n) = n := by
  induction fuel generalizing n with
  | zero =>
    have : n = 0 := by omega
    subst this
    rfl
  | succ fuel ih =>
    unfold decDigitsAux
    by_cases hn : n = 0
    · subst hn
      rfl
    · rw [if_neg hn, ofDigitsBE_append_single, ih (n / 10) (by omega)]
      exact Nat.div_add_mod n 10

theorem ofDigitsBE_cons_zero (l : List Nat) : ofDigitsBE (0 :: l) = ofDigitsBE l := rfl

theorem ofDigitsBE_rep_zero (k : Nat) (l : List Nat) :
    ofDigitsBE (List.replicate k 0 ++ l) = ofDigitsBE l := by
  induction k with
  | zero => rfl
  | succ k ih => rw [List.replicate_succ, List.cons_append, ofDigitsBE_cons_zero, ih]

theorem charToDigit_digitChar : ∀ d < 10, charToDigit (digitChar d) = d := by decide

theorem map_charToDigit_decChars (n : Nat) :
    (decChars n).map charToDigit = if n = 0 then [0] else decDigits n := by
  unfold decChars
  by_cases hn : n = 0
  · rw [if_pos hn, if_pos hn]
    rfl
  · rw [if_neg hn, if_neg hn, List.map_map]
    refine (List.map_congr_left ?_).trans (List.map_id _)
    intro d hd
    exact charToDigit_digitChar d (decDigitsAux_lt_ten n n d hd)

/-- Reading the digit characters of a padded identifier back recovers the
number: zero padding is invisible to the digit value. -/
theorem ofDigitsBE_pad4_decChars (n : Nat) :
    ofDigitsBE ((pad4 (decChars n)).map charToDigit) = n := by
  unfold pad4
  rw [List.map_append, List.map_replicate]
  have h0 : charToDigit '0' = 0 := rfl
  rw [h0, ofDigitsBE_rep_zero, map_charToDigit_decChars]
  by_cases hn : n = 0
  · rw [if_pos hn, hn]
    rfl
  · rw [if_neg hn]
    exact ofDigitsBE_decDigitsAux n n le_rfl

/-- The generated product identifier determines the row index. -/
theorem pidStr_injective : Function.Injective pidStr := by
  intro a b h
  have hch : 'P' :: pad4 (decChars a) = 'P' :: pad4 (decChars b) := congrArg String.data h
  have hpad : pad4 (decChars a) = pad4 (decChars b) := by
    exact (List.cons.injEq _ _ _ _ ▸ hch).2
  have hval := congrArg (fun l => ofDigitsBE (l.map charToDigit)) hpad
  simpa [ofDigitsBE_pad4_decChars] using hval

theorem getCol_sampleRow_id (kind : TableKind) (rand : Nat → Fin 3) (i : Nat) :
    getCol ((fixedHeader kind).zip (sampleRow kind rand i)) "product_id" = pidStr i := by
  cases kind <;> rfl

/-- C10: the table generator derives the product id injectively from the
row index, so the product-id column of every freshly generated table (any
kind, any row count) has pairwise-distinct values and the id sequence is
`P0001`, `P0002`, ... in row order. -/
theorem C10_generator_ids_distinct (kind : TableKind) (n : Nat) (rand : Nat → Fin 3) :
    ((dictRows (create_sample_csv kind rand n)).map
        (fun r => getCol r "product_id")).Nodup ∧
    (dictRows (create_sample_csv kind rand n)).map (fun r => getCol r "product_id") =
      (List.range' 1 n).map pidStr ∧
    Function.Injective pidStr := by
  have hmap : (dictRows (create_sample_csv kind rand n)).map
      (fun r => getCol r "product_id") = (List.range' 1 n).map pidStr := by
    unfold dictRows create_sample_csv
    rw [List.map_map, List.map_map]
    exact List.map_congr_left fun i _ => getCol_sampleRow_id kind rand i
  refine ⟨?_, hmap, pidStr_injective⟩
  rw [hmap]
  exact (List.nodup_range' _ _).map pidStr_injective

/-! ### Witnesses: each hypothesis-bearing claim theorem applied at a
concrete input, its hypotheses discharged by evaluation. -/

/-- Witness for C1 at the specification's worked example. -/
theorem C1_results_left_join_order_witness :
    ("product_id" ∈ vdW.header ∧ Rect vdW ∧ "product_id" ∈ piW.header ∧ Rect piW ∧
      (∀ c ∈ judgementCols, c ∈ jdW.header) ∧ Rect jdW) ∧
    (aggregate_core vdW piW jdW).2.length = (dictRows jdW).length :=
  ⟨⟨by decide, by decide, by decide, by decide, by decide, by decide⟩,
   (C1_results_left_join_order vdW piW jdW (by decide) (by decide) (by decide) (by decide)
     (by decide) (by decide)).2.1⟩

/-- Witness for C2 at the specification's worked example. -/
theorem C2_results_counts_witness :
    ("label" ∈ jdW.header ∧ "product_id" ∈ jdW.header ∧ Rect jdW) ∧
    (aggregate_core vdW piW jdW).1 =
      [("Yes", labelCount (dictRows jdW) "Yes"), ("N/A", labelCount (dictRows jdW) "N/A"),
       ("No", labelCount (dictRows jdW) "No")] :=
  ⟨⟨by decide, by decide, by decide⟩,
   (C2_results_counts vdW piW jdW (by decide) (by decide) (by decide)).1⟩

/-- Witness for C3: a valid request against the empty data directory. -/
theorem C3_results_missing_prerequisite_witness :
    ("session-1" ≠ "" ∧ "qwen_CoT_video_image_info" ∈ MODEL_NAMES ∧
      ¬((fsEmpty.tables "session-1" "qwen_CoT_video_image_info" .video_description).isSome ∧
        (fsEmpty.tables "session-1" "qwen_CoT_video_image_info" .product_info).isSome ∧
        (fsEmpty.tables "session-1" "qwen_CoT_video_image_info" .judgement).isSome)) ∧
    get_results fsEmpty (some "session-1") (some "qwen_CoT_video_image_info") =
      .error (400, "Not all required CSV files exist") :=
  ⟨⟨by decide, by decide, by decide⟩,
   C3_results_missing_prerequisite fsEmpty "session-1" "qwen_CoT_video_image_info"
     (by decide) (by decide) (by decide)⟩

/-- Witness for C4: overriding P0001 to No on the witness judgement table. -/
theorem C4_override_rewrites_matching_labels_witness :
    ("session-1" ≠ "" ∧ "qwen_CoT_video_image_info" ∈ MODEL_NAMES ∧ "P0001" ≠ "" ∧
      "No" ∈ knownLabels ∧
      fsW.tables "session-1" "qwen_CoT_video_image_info" .judgement = some jdW ∧
      jdW.header.Nodup ∧ Rect jdW ∧ "label" ∈ jdW.header ∧ jdW.rows ≠ []) ∧
    (∃ g : CSVFile,
      override_label fsW (some "session-1") (some "qwen_CoT_video_image_info")
          (some "P0001") (some "No") =
        (.ok (), fsW.set "session-1" "qwen_CoT_video_image_info" .judgement g, true) ∧
      g.header = jdW.header ∧
      g.rows.length = jdW.rows.length ∧
      dictRows g = (dictRows jdW).map (overrideRow "P0001" "No") ∧
      (∀ r ∈ dictRows jdW,
        getCol (overrideRow "P0001" "No" r) "label" =
          (if getCol r "product_id" = "P0001" then "No" else getCol r "label") ∧
        (∀ c, c ≠ "label" → getCol (overrideRow "P0001" "No" r) c = getCol r c) ∧
        (getCol r "product_id" ≠ "P0001" → overrideRow "P0001" "No" r = r)) ∧
      (∀ u' m' k', ¬(u' = "session-1" ∧ m' = "qwen_CoT_video_image_info" ∧
          k' = TableKind.judgement) →
        (override_label fsW (some "session-1") (some "qwen_CoT_video_image_info")
            (some "P0001") (some "No")).2.1.tables u' m' k' = fsW.tables u' m' k')) :=
  ⟨⟨by decide, by decide, by decide, by decide, by decide, by decide, by decide,
    by decide, by decide⟩,
   C4_override_rewrites_matching_labels fsW "session-1" "qwen_CoT_video_image_info"
     "P0001" "No" jdW (by decide) (by decide) (by decide) (by decide) (by decide)
     (by decide) (by decide) (by decide) (by decide)⟩

/-- Witness for C6: with no judgement table the override fails 400 and the
data directory is untouched. -/
theorem C6_override_missing_id_and_table_witness :
    ("session-1" ≠ "" ∧ "qwen_CoT_video_image_info" ∈ MODEL_NAMES ∧ "P0001" ≠ "" ∧
      "No" ∈ knownLabels) ∧
    override_label fsEmpty (some "session-1") (some "qwen_CoT_video_image_info")
        (some "P0001") (some "No") =
      (.error (400, "Judgement CSV not found"), fsEmpty, false) :=
  ⟨⟨by decide, by decide, by decide, by decide⟩,
   (C6_override_missing_id_and_table fsEmpty "session-1" "qwen_CoT_video_image_info"
     "P0001" "No" (by decide) (by decide) (by decide) (by decide)).1 rfl⟩

/-- Witness for C7 (amended): after clearing the session every table
reports pending. -/
theorem C7_status_existence_probe_witness :
    ("session-1" ≠ "" ∧ "qwen_CoT_video_image_info" ∈ MODEL_NAMES) ∧
    get_status (clear_all fsW (some "session-1")).2 (some "session-1")
        (some "qwen_CoT_video_image_info") = .ok
      [("video_description_csv", "pending"), ("product_info_csv", "pending"),
       ("judgement_csv", "pending")] :=
  ⟨⟨by decide, by decide⟩,
   (C7_status_existence_probe fsW "session-1" "qwen_CoT_video_image_info"
     (by decide) (by decide)).2.2⟩

/-- Witness for C8: the judge endpoint fills the judgement slot of the
empty directory with the 50-row generated table. -/
theorem C8_generator_count_and_unconditional_overwrite_witness :
    ("session-1" ≠ "" ∧ "qwen_CoT_video_image_info" ∈ MODEL_NAMES) ∧
    (judge fsEmpty (some "session-1") (some "qwen_CoT_video_image_info")
        (fun _ => 0)).2.tables "session-1" "qwen_CoT_video_image_info" .judgement =
      some (create_sample_csv .judgement (fun _ => 0) 50) :=
  ⟨⟨by decide, by decide⟩,
   (C8_generator_count_and_unconditional_overwrite .judgement 3 (fun _ => 0) fsEmpty
     "session-1" "qwen_CoT_video_image_info" (by decide) (by decide)).2.2.1⟩

/-- Witness for C9: the unknown model name gpt-4 is rejected with 400. -/
theorem C9_invalid_model_rejected_witness :
    ("gpt-4" ∉ MODEL_NAMES) ∧
    errorStatus (make_video_description fsEmpty (some "session-1") (some "gpt-4")).1 =
      some 400 :=
  ⟨by decide,
   (C9_invalid_model_rejected fsEmpty (some "session-1") (some "P0001") (some "No")
     "gpt-4" (fun _ => 0) (by decide)).1⟩

end FlaskApp
